import Mathlib

/-!
# Verification of the mio-express route/handler engine

Shallow embedding of `lib/mio-express.js` (the current plugin version: the
`exports.plugin` module with `ResourceRouter`, `setAllowedActions`,
`mergeParams` and `merge`).  JavaScript objects are modelled as association
lists of string keys and JS values; the asynchronous resource layer (mio) and
the external libraries (http-error, fast-json-patch, path-to-regexp) are
modelled as explicit oracles or functions, following the contracts the module
relies on.
-/

set_option autoImplicit false

namespace MioExpress

/-- A JavaScript value as it occurs in this module: strings (path captures
and payload fields), numbers — finite values as exact rationals (the rounding
of JS's binary float64 is idealized away) with the two infinities kept apart
(NaN is never stored: the coercion in `mergeParams` is guarded by `!isNaN`) —
objects, and arrays. -/
inductive JSVal where
  | str (s : String)
  | num (q : ℚ)
  | numInf (neg : Bool)
  | obj (fields : List (String × JSVal))
  | arr (elems : List JSVal)

/-- A JavaScript object: ordered association list of fields, unique keys. -/
abbrev Obj := List (String × JSVal)

/-- Assignment `o[k] = v`: overwrite the field in place when the key is
present, otherwise append the new field (JS objects keep insertion order). -/
def objSet : Obj → String → JSVal → Obj
  | [], k, v => [(k, v)]
  | p :: rest, k, v => if p.1 = k then (k, v) :: rest else p :: objSet rest k v

/-- Field lookup `o[k]`. -/
def objGet (o : Obj) (k : String) : Option JSVal :=
  (o.find? (fun p => p.1 = k)).map (fun p => p.2)

/-- `k in o`. -/
def objHas (o : Obj) (k : String) : Bool :=
  o.any (fun p => p.1 = k)

/-- A JS number produced by `Number(string)` when the string is numeric: a
finite value (exact rational) or an infinity. `NaN` is represented by `none`
at the use sites. -/
inductive JSNum where
  | val (q : ℚ)
  | inf (neg : Bool)
deriving DecidableEq

/-- The `StrWhiteSpaceChar` set trimmed by JS `ToNumber`: the ASCII
whitespace forms plus no-break space and the BOM (the remaining Unicode
space-separator code points are outside the modelled fragment). -/
def isWS (c : Char) : Bool :=
  c == ' ' || c == '\t' || c == '\n' || c == '\r' || c == '\x0b' ||
    c == '\x0c' || c == '\u00A0' || c == '\uFEFF'

/-- Drop leading whitespace from a character list. -/
def dropWS : List Char → List Char
  | [] => []
  | c :: rest => if isWS c then dropWS rest else c :: rest

/-- Value of a single hexadecimal digit. -/
def hexDigitVal? (c : Char) : Option Nat :=
  if '0' ≤ c ∧ c ≤ '9' then some (c.toNat - 48)
  else if 'a' ≤ c ∧ c ≤ 'f' then some (c.toNat - 87)
  else if 'A' ≤ c ∧ c ≤ 'F' then some (c.toNat - 55)
  else none

/-- Value of a non-empty list of hexadecimal digits, else `none`. -/
def hexVal? : List Char → Option Nat
  | [] => none
  | cs => go 0 cs
where
  /-- Left fold over hex digits, failing on a non-digit. -/
  go (acc : Nat) : List Char → Option Nat
    | [] => some acc
    | c :: t =>
        match hexDigitVal? c with
        | some d => go (acc * 16 + d) t
        | none => none

/-- Value of a non-empty all-decimal-digit character list, else `none`. -/
def decDigits? (cs : List Char) : Option Nat :=
  if cs ≠ [] ∧ cs.all Char.isDigit then
    some (cs.foldl (fun n c => n * 10 + (c.toNat - 48)) 0)
  else none

/-- Split a character list at the first `e`/`E` exponent marker. -/
def splitExpMark : List Char → List Char × Option (List Char)
  | [] => ([], none)
  | c :: t =>
      if c = 'e' ∨ c = 'E' then ([], some t)
      else
        let r := splitExpMark t
        (c :: r.1, r.2)

/-- Split a character list at the first decimal point. -/
def splitDot : List Char → List Char × Option (List Char)
  | [] => ([], none)
  | c :: t =>
      if c = '.' then ([], some t)
      else
        let r := splitDot t
        (c :: r.1, r.2)

/-- Strip an optional leading sign; `true` means negative. -/
def stripSign : List Char → Bool × List Char
  | '+' :: t => (false, t)
  | '-' :: t => (true, t)
  | t => (false, t)

/-- Parse a decimal mantissa `digits [. [digits]]` or `. digits` (at least
one digit overall): the digits' combined value and the number of fraction
digits. -/
def mantissa? (cs : List Char) : Option (Nat × Nat) :=
  let s := splitDot cs
  match s.2 with
  | none => (decDigits? s.1).map (fun n => (n, 0))
  | some frac =>
      if s.1 = [] then (decDigits? frac).map (fun f => (f, frac.length))
      else if frac = [] then (decDigits? s.1).map (fun n => (n, 0))
      else
        match decDigits? s.1, decDigits? frac with
        | some i, some f => some (i * 10 ^ frac.length + f, frac.length)
        | _, _ => none

/-- Parse a decimal exponent `[sign] digits`. -/
def exponent? (cs : List Char) : Option Int :=
  let s := stripSign cs
  (decDigits? s.2).map (fun n => if s.1 then -(n : Int) else (n : Int))

/-- `m * 10 ^ k` as an exact rational. -/
def decExpValue (m : Int) (k : Int) : ℚ :=
  if 0 ≤ k then ((m * 10 ^ k.toNat : Int) : ℚ)
  else (m : ℚ) / ((10 : ℚ) ^ (-k).toNat)

/-- Parse an ES5 `StrDecimalLiteral`: an optional sign followed by
`Infinity` or by a decimal mantissa with an optional exponent part. -/
def strDecimal? (cs : List Char) : Option JSNum :=
  let s := stripSign cs
  if s.2 = "Infinity".toList then some (.inf s.1)
  else
    let me := splitExpMark s.2
    let expVal : Option Int :=
      match me.2 with
      | none => some 0
      | some ecs => exponent? ecs
    match mantissa? me.1, expVal with
    | some mf, some e =>
        let m : Int := if s.1 then -(mf.1 : Int) else (mf.1 : Int)
        some (.val (decExpValue m (e - (mf.2 : Int))))
    | _, _ => none

/-- Model of the JavaScript runtime string-to-number conversion used by
`isNaN(s)` and `Number(s)` in `mergeParams` — ES5 `ToNumber` on strings, the
specification generation matching this module's era: surrounding whitespace
is trimmed; the empty (or all-whitespace) string converts to `0`; a
`0x`/`0X` hex integer literal (unsigned), an optionally signed `Infinity`,
and an optionally signed decimal literal with optional fraction and optional
exponent all convert to the corresponding number; every other string is NaN
(`none`). Finite values are exact rationals (float64 rounding idealized);
the ES2015 binary/octal forms postdate the modelled runtime and are NaN
here. -/
def jsToNumber (s : String) : Option JSNum :=
  let t := (dropWS (dropWS s.toList).reverse).reverse
  match t with
  | [] => some (.val 0)
  | '0' :: x :: rest =>
      if x = 'x' ∨ x = 'X' then
        (hexVal? rest).map (fun n => .val ((n : Int) : ℚ))
      else strDecimal? t
  | _ => strDecimal? t

/-- The net effect of `target[param] = params[param]` followed by the
`!isNaN` re-assignment in `mergeParams`: a numeric string is stored as the
number it converts to, any other string is stored unchanged. -/
def coerceParam (v : String) : JSVal :=
  match jsToNumber v with
  | some (.val q) => .num q
  | some (.inf b) => .numInf b
  | none => .str v

/-- `mergeParams(Resource, target, params)` from lib/mio-express.js: for each
parameter whose name is a declared attribute, store its (numerically coerced)
value on the target; parameters not matching any attribute are dropped.
Parameters are processed in object-key order; the mutated target is the
result. -/
def mergeParams (attrs : List String) (target : Obj) :
    List (String × String) → Obj
  | [] => target
  | (k, v) :: rest =>
      mergeParams attrs
        (if attrs.contains k then objSet target k (coerceParam v) else target)
        rest

/-- `merge(a, b)` from lib/mio-express.js applied to `req.params` (whose
values are the raw strings captured from the path): unrestricted key-by-key
copy, no attribute filter and no numeric coercion. -/
def mergeRaw (a : Obj) : List (String × String) → Obj
  | [] => a
  | (k, v) :: rest => mergeRaw (objSet a k (.str v)) rest

/-- `resource.set(fields)` (external mio resource). Modelled from the spec:
overwrite the instance's fields from the payload, a shallow key-by-key merge. -/
def objSetFields (base : Obj) (fields : Obj) : Obj :=
  fields.foldl (fun t p => objSet t p.1 p.2) base

/-- An error produced by the external resource layer (storage/validation),
passed through unchanged. -/
structure Err where
  msg : String
deriving DecidableEq

/-- Errors constructed by this module via the external `http-error` library. -/
inductive HErr where
  | notFound
  | methodNotAllowed
  | upstream (e : Err)
deriving DecidableEq

/-- Modelled from the spec: the HTTP status carried by the `http-error`
constructors used here (`NotFound` ↦ 404, `MethodNotAllowed` ↦ 405); upstream
errors carry no status chosen by this module. -/
def herrStatus : HErr → Option Nat
  | .notFound => some 404
  | .methodNotAllowed => some 405
  | .upstream _ => none

/-- A failure raised by the external JSON-Patch library. -/
inductive PatchErr where
  | malformedOp
  | invalidPath (p : String)
deriving DecidableEq

/-- A JSON-Patch operation as it reaches `jsonpatch.apply`: a well-formed
`replace` of a top-level field, or a structurally malformed operation (no
valid `op`/`path` members — this is also what an array-valued element
denotes when a non-patch body ends up in the operation position). -/
inductive PatchOp where
  | replaceField (name : String) (v : JSVal)
  | bad

/-- Modelled from the spec: the external JSON-Patch library
(`fast-json-patch`) applies a sequence of patch operations to an in-memory
object, raising on malformed patches or invalid paths. -/
def applyOp (o : Obj) : PatchOp → Except PatchErr Obj
  | .bad => .error .malformedOp
  | .replaceField n v =>
      if objHas o n then .ok (objSet o n v) else .error (.invalidPath n)

/-- `jsonpatch.apply(tree, patches)`: apply operations left to right; the
first failure raises (a synchronous exception at the call site). -/
def jsonpatchApply (o : Obj) : List PatchOp → Except PatchErr Obj
  | [] => .ok o
  | op :: rest => do jsonpatchApply (← applyOp o op) rest

/-- The parsed JSON body of a single-item PATCH request: either an array of
patch operations or a single (non-array) operation object. -/
inductive PBody where
  | arr (ops : List PatchOp)
  | one (op : PatchOp)

/-- The operation list passed to `jsonpatch.apply` by `exports.update`:
`req.body.length` selects the array as-is when it is non-empty; otherwise
(single object, or empty array whose `length` is falsy) the body itself is
wrapped in a one-element array — for an empty array body that one element is
the array itself, a malformed operation. -/
def pbodyOps : PBody → List PatchOp
  | .arr [] => [.bad]
  | .arr ops => ops
  | .one op => [op]

/-- The parsed body of a collection PATCH: an array of per-item patch arrays,
or one shared (non-array) operation object. -/
inductive MBody where
  | arrs (pss : List (List PatchOp))
  | one (op : PatchOp)

/-- The operations `exports.updateMany` passes to `jsonpatch.apply` for the
`i`-th fetched resource: `req.body[i]` when the body is a non-empty array
(an out-of-range index hands the library `undefined`, which raises); the
wrapped body otherwise (for an empty array body the element is the array
itself, malformed). -/
def mbodyOpsAt (body : MBody) (i : Nat) : Except PatchErr (List PatchOp) :=
  match body with
  | .arrs [] => .ok [.bad]
  | .arrs pss =>
      match pss[i]? with
      | some ps => .ok ps
      | none => .error .malformedOp
  | .one op => .ok [op]

/-- The external mio resource bound to the handlers (`this`): declared
attribute names plus the asynchronous storage operations, modelled as
oracles whose results drive the handler's continuation. -/
structure Res where
  attrs : List String
  findOne : Obj → Except Err (Option Obj)
  find : Obj → Except Err (List Obj)
  save : Obj → Except Err Unit
  removeOne : Obj → Except Err Unit
  removeMany : Obj → Except Err Unit
  bulkUpdate : Obj → MBody → Except Err Unit

/-- What a handler run does with its response/next capabilities. -/
inductive Outcome where
  | response (status : Nat) (body : Option JSVal) (headers : List (String × JSVal))
  | nextError (e : HErr)
  | pass
  | thrown (e : PatchErr)

/-- Observable trace of one handler invocation: the outcome, the queries
passed to the storage lookups, and the argument of every `resource.save`
call (attempted item persists, in order). -/
structure RunOut where
  outcome : Outcome
  queries : List Obj
  saveCalls : List Obj

/-- The HTTP status observable from an outcome: a written response's status,
or the status of the HTTP error handed to `next`; a pass-through or an
uncaught exception carries none. -/
def outcomeStatus : Outcome → Option Nat
  | .response s _ _ => some s
  | .nextError e => herrStatus e
  | .pass => none
  | .thrown _ => none

/-- A concrete resource with the given attributes and find-one oracle and
trivially succeeding storage operations, used to instantiate the theorems. -/
def mkRes (attrs : List String) (fo : Obj → Except Err (Option Obj)) : Res :=
  ⟨attrs, fo, fun _ => .ok [], fun _ => .ok (), fun _ => .ok (),
   fun _ => .ok (), fun _ _ => .ok ()⟩

/-- The RFC 7240 `Prefer` check shared by `replace`, `update` and
`updateMany`: `prefer && prefer.match(/return=representation/i)` — the header
is present and its value contains `return=representation` case-insensitively. -/
def preferMatch : Option String → Bool
  | none => false
  | some p => hasSub "return=representation".toList (p.toList.map Char.toLower)
where
  /-- Substring containment on character lists. -/
  hasSub (needle : List Char) : List Char → Bool
    | [] => needle.isEmpty
    | c :: t => needle.isPrefixOf (c :: t) || hasSub needle t

/-- The shared `Prefer`-governed response: `200` with the body when the
header matches, `204` with an empty body otherwise. -/
def respondPrefer (prefer : Option String) (body : JSVal) : Outcome :=
  if preferMatch prefer then .response 200 (some body) [] else .response 204 none []

/-- `exports.index`: merge params into the query unrestricted, `find`, and
answer 200 with the collection. -/
def indexRun (R : Res) (query : Obj) (params : List (String × String)) : RunOut :=
  let q := mergeRaw query params
  match R.find q with
  | .error e => ⟨.nextError (.upstream e), [q], []⟩
  | .ok coll => ⟨.response 200 (some (.arr (coll.map .obj))) [], [q], []⟩

/-- `exports.show`: merge params into the query unrestricted, `findOne`;
200 with the item when found, `next(NotFound)` when not. -/
def showRun (R : Res) (query : Obj) (params : List (String × String)) : RunOut :=
  let q := mergeRaw query params
  match R.findOne q with
  | .error e => ⟨.nextError (.upstream e), [q], []⟩
  | .ok (some r) => ⟨.response 200 (some (.obj r)) [], [q], []⟩
  | .ok none => ⟨.nextError .notFound, [q], []⟩

/-- A JS `for..in` over a string enumerates its character indices, so a URL
template string passed where a parameter map is expected is seen by
`mergeParams` as the bindings `("0", first character), ("1", …), …`. -/
def stringAsParams (s : String) : List (String × String) :=
  (List.range s.length).map (fun i => (toString i, String.mk [s.toList.getD i ' ']))

/-- The value `exports.create` sets as the `Location` header:
`mergeParams(Resource, resource, Resource.url.resource)` — the third argument
is the URL template *string*, so `mergeParams` iterates its character indices
and returns its target, the created resource object. -/
def createLocation (attrs : List String) (resource : Obj) (template : String) : Obj :=
  mergeParams attrs resource (stringAsParams template)

/-- `exports.create`: merge params into the body (attribute-restricted),
build the instance from the body, `save`; on success answer 201 with the
resource and a `Location` header holding `createLocation`'s result. -/
def createRun (R : Res) (body : Obj) (params : List (String × String))
    (urlResource : String) : RunOut :=
  let body2 := mergeParams R.attrs body params
  let resource := objSetFields [] body2
  match R.save resource with
  | .error e => ⟨.nextError (.upstream e), [], [resource]⟩
  | .ok _ =>
      let loc := createLocation R.attrs resource urlResource
      ⟨.response 201 (some (.obj loc)) [("Location", .obj loc)], [], [resource]⟩

/-- `exports.replace`: merge params into the query (attribute-restricted),
`findOne`; replace the found item's fields (or a fresh instance when absent,
noting status 201), `save`; 201 with the body for a fresh item, otherwise the
`Prefer`-governed 200/204. -/
def replaceRun (R : Res) (query : Obj) (params : List (String × String))
    (body : Obj) (prefer : Option String) : RunOut :=
  let q := mergeParams R.attrs query params
  match R.findOne q with
  | .error e => ⟨.nextError (.upstream e), [q], []⟩
  | .ok maybe =>
      let status : Nat := if maybe.isNone then 201 else 204
      let resource := objSetFields (maybe.getD []) body
      match R.save resource with
      | .error e => ⟨.nextError (.upstream e), [q], [resource]⟩
      | .ok _ =>
          if status = 201 then
            ⟨.response 201 (some (.obj resource)) [], [q], [resource]⟩
          else
            ⟨respondPrefer prefer (.obj resource), [q], [resource]⟩

/-- `exports.update`: merge params into the query (attribute-restricted),
`findOne`; `next(NotFound)` when absent; otherwise apply the JSON-Patch body
to the item — the library call is not guarded, so a patch failure propagates
as a synchronous exception and `save` is never reached — then `save` and
answer per `Prefer`. -/
def updateRun (R : Res) (query : Obj) (params : List (String × String))
    (body : PBody) (prefer : Option String) : RunOut :=
  let q := mergeParams R.attrs query params
  match R.findOne q with
  | .error e => ⟨.nextError (.upstream e), [q], []⟩
  | .ok none => ⟨.nextError .notFound, [q], []⟩
  | .ok (some r) =>
      match jsonpatchApply r (pbodyOps body) with
      | .error pe => ⟨.thrown pe, [q], []⟩
      | .ok r2 =>
          match R.save r2 with
          | .error e => ⟨.nextError (.upstream e), [q], [r2]⟩
          | .ok _ => ⟨respondPrefer prefer (.obj r2), [q], [r2]⟩

/-- Apply the collection PATCH body to every fetched resource, by index. -/
def patchAll (body : MBody) : List (Nat × Obj) → Except PatchErr (List Obj)
  | [] => .ok []
  | (i, r) :: rest => do
      let ops ← mbodyOpsAt body i
      let r2 ← jsonpatchApply r ops
      let rest2 ← patchAll body rest
      .ok (r2 :: rest2)

/-- `exports.updateMany`: merge params into the query unrestricted, `find`,
patch each fetched resource from the body (unguarded — a failure propagates
as an exception), bulk-persist, answer per `Prefer` with the patched
collection. -/
def updateManyRun (R : Res) (query : Obj) (params : List (String × String))
    (body : MBody) (prefer : Option String) : RunOut :=
  let q := mergeRaw query params
  match R.find q with
  | .error e => ⟨.nextError (.upstream e), [q], []⟩
  | .ok resources =>
      match patchAll body (resources.enum) with
      | .error pe => ⟨.thrown pe, [q], []⟩
      | .ok resources2 =>
          match R.bulkUpdate q body with
          | .error e => ⟨.nextError (.upstream e), [q], []⟩
          | .ok _ => ⟨respondPrefer prefer (.arr (resources2.map .obj)), [q], []⟩

/-- `exports.destroy`: merge params into the query (attribute-restricted),
`findOne`; `next(NotFound)` when absent; otherwise remove the item and answer
204 with an empty body. -/
def destroyRun (R : Res) (query : Obj) (params : List (String × String)) : RunOut :=
  let q := mergeParams R.attrs query params
  match R.findOne q with
  | .error e => ⟨.nextError (.upstream e), [q], []⟩
  | .ok none => ⟨.nextError .notFound, [q], []⟩
  | .ok (some r) =>
      match R.removeOne r with
      | .error e => ⟨.nextError (.upstream e), [q], []⟩
      | .ok _ => ⟨.response 204 none [], [q], []⟩

/-- `exports.destroyMany`: merge params into the query unrestricted, bulk
remove, answer 204 with an empty body. -/
def destroyManyRun (R : Res) (query : Obj) (params : List (String × String)) : RunOut :=
  let q := mergeRaw query params
  match R.removeMany q with
  | .error e => ⟨.nextError (.upstream e), [q], []⟩
  | .ok _ => ⟨.response 204 none [], [q], []⟩

/-! ## The router (`ResourceRouter`, its middleware, `setAllowedActions`) -/

/-- The fixed `actionsToMethods` table from lib/mio-express.js, in its
object-key order. -/
def actionsToMethodsTable : List (String × String) :=
  [("describe", "OPTIONS"), ("describeMany", "OPTIONS"),
   ("index", "GET"), ("show", "GET"), ("create", "POST"),
   ("replace", "PUT"), ("update", "PATCH"), ("updateMany", "PATCH"),
   ("destroy", "DELETE"), ("destroyMany", "DELETE")]

/-- First value bound to a key in an association list (JS object lookup). -/
def alget (m : List (String × String)) (k : String) : Option String :=
  (m.find? (fun p => p.1 = k)).map (fun p => p.2)

/-- `actionsToMethods[action]` — `none` models JS `undefined` for an action
outside the fixed table. -/
def actionsToMethods (action : String) : Option String :=
  alget actionsToMethodsTable action

/-- The default `url.actions` map built by the plugin when none is given:
item-level actions on the resource template, collection-level actions on the
collection template, in the object-literal order of the source. -/
def defaultActions (resource collection : String) : List (String × String) :=
  [("show", resource), ("update", resource), ("replace", resource),
   ("destroy", resource), ("describe", resource),
   ("index", collection), ("create", collection),
   ("updateMany", collection), ("destroyMany", collection),
   ("describeMany", collection)]

/-- Split a path into its non-empty `/`-separated segments. -/
def splitPath (s : String) : List String :=
  go [] s.toList
where
  /-- Accumulate the current segment (reversed) while scanning. -/
  go (cur : List Char) : List Char → List String
    | [] => if cur.isEmpty then [] else [String.mk cur.reverse]
    | c :: rest =>
        if c = '/' then
          if cur.isEmpty then go [] rest
          else String.mk cur.reverse :: go [] rest
        else go (c :: cur) rest

/-- Modelled from the spec: the external `path-to-regexp` matcher — purely
structural segment matching, a `:name` segment captures any single concrete
segment, a literal segment must be equal; returns the captured bindings in
template order. -/
def segMatch : List String → List String → Option (List (String × String))
  | [], [] => some []
  | t :: ts, p :: ps =>
      match t.toList with
      | ':' :: name => (segMatch ts ps).map (fun bs => (String.mk name, p) :: bs)
      | _ => if t = p then segMatch ts ps else none
  | _, _ => none

/-- Match a concrete request path against a URL template. -/
def pathMatch (template path : String) : Option (List (String × String)) :=
  segMatch (splitPath template) (splitPath path)

/-- One entry of the router's table: action name, URL template, and the HTTP
method from the fixed `actionsToMethods` table (`none` when the action has no
entry there). The handler is identified by the action name. -/
structure Route where
  action : String
  path : String
  method : Option String
deriving DecidableEq

/-- `ResourceRouter`: one route per configured action, in configuration
order. -/
def buildRoutes (actions : List (String × String)) : List Route :=
  actions.map (fun p => ⟨p.1, p.2, actionsToMethods p.1⟩)

/-- `ResourceRouter.prototype.match`: the routes whose template matches the
request path, in table order. -/
def matchedRoutes (actions : List (String × String)) (reqPath : String) : List Route :=
  (buildRoutes actions).filter (fun r => (pathMatch r.path reqPath).isSome)

/-- Assignment into `req.params` (string-valued). -/
def setParam : List (String × String) → String → String → List (String × String)
  | [], k, v => [(k, v)]
  | p :: rest, k, v => if p.1 = k then (k, v) :: rest else p :: setParam rest k v

/-- The `req.params` accumulated by `match`: every matched route writes its
captures into the shared map, in order. -/
def routeParams (actions : List (String × String)) (reqPath : String) :
    List (String × String) :=
  (matchedRoutes actions reqPath).foldl
    (fun acc r =>
      match pathMatch r.path reqPath with
      | some bs => bs.foldl (fun m b => setParam m b.1 b.2) acc
      | none => acc)
    []

/-- `setAllowedActions(path, Resource, res)`: walk the fixed
`actionsToMethods` table and collect the method of every action whose
configured URL equals the given route path; the list becomes the `Allow`
header. -/
def setAllowedActions (path : String) (actions : List (String × String)) :
    List String :=
  (actionsToMethodsTable.filter (fun p => alget actions p.1 = some path)).map
    (fun p => p.2)

/-- What the router middleware does with a request. -/
inductive RouterOut where
  | dispatched (action : String) (params : List (String × String))
  | notAllowed (e : HErr) (allow : List String)
  | pass
deriving DecidableEq

/-- `MioExpressRouterMiddleware`: match the path; pass through on no match;
dispatch to the first matched route whose method equals the request method;
otherwise run `exports.methodNotAllowed`, which sets the `Allow` header from
the first matched route's template (`req.route = matched[0]`) and fails with
`MethodNotAllowed`. -/
def routerRun (actions : List (String × String)) (reqPath reqMethod : String) :
    RouterOut :=
  match matchedRoutes actions reqPath with
  | [] => .pass
  | first :: rest =>
      match (first :: rest).find? (fun r => r.method = some reqMethod) with
      | some r => .dispatched r.action (routeParams actions reqPath)
      | none => .notAllowed .methodNotAllowed (setAllowedActions first.path actions)

/-- The HTTP methods registered in the action table for a given URL template:
the methods of the routes built from the configuration whose template equals
it. -/
def methodsAt (actions : List (String × String)) (path : String) : List String :=
  (buildRoutes actions).filterMap
    (fun r => if r.path = path then r.method else none)

/-- A JS value rendered as text (as it would appear inside a URL); integral
numbers render as their integer digits, non-integral ones via the rational's
printer (a fragment: the claims only render integral values). -/
def valueText : JSVal → String
  | .str s => s
  | .num q => if q.den = 1 then toString q.num else toString q
  | .numInf neg => if neg then "-Infinity" else "Infinity"
  | .obj _ => "[object Object]"
  | .arr _ => ""

/-- Modelled from the spec: the `Location` header the create handler is
described as producing — the resource URL template with every `:name`
placeholder substituted by the created resource's value for that attribute,
the placeholder `primary` standing for the primary attribute's name. -/
def substituteTemplate (primaryName : String) (resource : Obj)
    (template : String) : String :=
  "/" ++ String.intercalate "/"
    ((splitPath template).map (fun seg =>
      match seg.toList with
      | ':' :: nameChars =>
          let attr := String.mk nameChars
          let attr2 := if attr = "primary" then primaryName else attr
          match objGet resource attr2 with
          | some v => valueText v
          | none => seg
      | _ => seg))

/-! ## Basic lemmas on objects and the two merge functions -/

theorem objGet_cons (p : String × JSVal) (l : Obj) (k : String) :
    objGet (p :: l) k = if p.1 = k then some p.2 else objGet l k := by
  by_cases h : p.1 = k <;> simp [objGet, List.find?_cons, h]

theorem objGet_objSet_self (o : Obj) (k : String) (v : JSVal) :
    objGet (objSet o k v) k = some v := by
  induction o with
  | nil => simp [objSet, objGet]
  | cons p rest ih =>
      by_cases h : p.1 = k
      · simp [objSet, h, objGet_cons]
      · simp [objSet, h, objGet_cons, ih]

theorem objGet_objSet_ne (o : Obj) (k k' : String) (v : JSVal) (h : k' ≠ k) :
    objGet (objSet o k v) k' = objGet o k' := by
  have h' : ¬(k = k') := fun hh => h hh.symm
  induction o with
  | nil => simp [objSet, objGet, objGet_cons, h']
  | cons p rest ih =>
      by_cases hp : p.1 = k
      · have hp' : ¬(p.1 = k') := by rw [hp]; exact h'
        simp [objSet, hp, objGet_cons, h', hp', ih]
      · simp [objSet, hp, objGet_cons, ih]

theorem objHas_iff_mem (o : Obj) (k : String) :
    objHas o k = true ↔ k ∈ o.map Prod.fst := by
  simp [objHas, List.any_eq_true, List.mem_map]

theorem mem_keys_objSet (o : Obj) (k k' : String) (v : JSVal) :
    k' ∈ (objSet o k v).map Prod.fst ↔ k' = k ∨ k' ∈ o.map Prod.fst := by
  induction o with
  | nil => simp [objSet]
  | cons p rest ih =>
      by_cases hp : p.1 = k
      · have he : objSet (p :: rest) k v = (k, v) :: rest := by
          simp only [objSet, if_pos hp]
        rw [he]
        simp only [List.map_cons, List.mem_cons, hp]
        tauto
      · simp only [objSet, if_neg hp, List.map_cons, List.mem_cons, ih]
        tauto

theorem objHas_objSet (o : Obj) (k k' : String) (v : JSVal) :
    objHas (objSet o k v) k' = true ↔ k' = k ∨ objHas o k' = true := by
  rw [objHas_iff_mem, objHas_iff_mem, mem_keys_objSet]

theorem objGet_mergeParams_of_notMem (attrs : List String) (t : Obj)
    (ps : List (String × String)) (k : String) (h : ∀ q ∈ ps, q.1 ≠ k) :
    objGet (mergeParams attrs t ps) k = objGet t k := by
  induction ps generalizing t with
  | nil => rfl
  | cons q rest ih =>
      obtain ⟨qk, qv⟩ := q
      have hk : qk ≠ k := h (qk, qv) (List.mem_cons_self _ _)
      have hrest : ∀ r ∈ rest, r.1 ≠ k := fun r hr => h r (List.mem_cons_of_mem _ hr)
      by_cases hc : attrs.contains qk
      · simp only [mergeParams, if_pos hc]
        rw [ih _ hrest, objGet_objSet_ne _ _ _ _ (Ne.symm hk)]
      · simp only [mergeParams, if_neg hc]
        exact ih _ hrest

theorem mergeParams_key_safe (attrs : List String) (t : Obj)
    (ps : List (String × String)) (k : String)
    (h : objHas (mergeParams attrs t ps) k = true) :
    objHas t k = true ∨ k ∈ attrs := by
  induction ps generalizing t with
  | nil => exact Or.inl h
  | cons q rest ih =>
      obtain ⟨qk, qv⟩ := q
      by_cases hc : attrs.contains qk
      · simp only [mergeParams, if_pos hc] at h
        rcases ih _ h with h1 | h2
        · rcases (objHas_objSet t qk k (coerceParam qv)).mp h1 with h3 | h4
          · subst h3
            exact Or.inr (by simpa using hc)
          · exact Or.inl h4
        · exact Or.inr h2
      · simp only [mergeParams, if_neg hc] at h
        exact ih _ h

theorem objGet_mergeParams_of_mem (attrs : List String) (t : Obj)
    (ps : List (String × String)) (hnd : (ps.map Prod.fst).Nodup)
    (k : String) (v : String) (hmem : (k, v) ∈ ps) (hk : k ∈ attrs) :
    objGet (mergeParams attrs t ps) k = some (coerceParam v) := by
  induction ps generalizing t with
  | nil => cases hmem
  | cons q rest ih =>
      obtain ⟨qk, qv⟩ := q
      simp only [List.map_cons, List.nodup_cons] at hnd
      rcases List.mem_cons.mp hmem with heq | htail
      · obtain ⟨rfl, rfl⟩ := Prod.mk.injEq .. ▸ heq
        have hcont : attrs.contains k = true := by simpa using hk
        have hrest : ∀ r ∈ rest, r.1 ≠ k := by
          intro r hr hkk
          exact hnd.1 (hkk ▸ List.mem_map_of_mem Prod.fst hr)
        simp only [mergeParams, if_pos hcont]
        rw [objGet_mergeParams_of_notMem _ _ _ _ hrest, objGet_objSet_self]
      · by_cases hc : attrs.contains qk
        · simp only [mergeParams, if_pos hc]
          exact ih _ hnd.2 htail
        · simp only [mergeParams, if_neg hc]
          exact ih _ hnd.2 htail

theorem objGet_mergeRaw_of_notMem (a : Obj) (ps : List (String × String))
    (k : String) (h : ∀ q ∈ ps, q.1 ≠ k) :
    objGet (mergeRaw a ps) k = objGet a k := by
  induction ps generalizing a with
  | nil => rfl
  | cons q rest ih =>
      obtain ⟨qk, qv⟩ := q
      have hk : qk ≠ k := h (qk, qv) (List.mem_cons_self _ _)
      have hrest : ∀ r ∈ rest, r.1 ≠ k := fun r hr => h r (List.mem_cons_of_mem _ hr)
      simp only [mergeRaw]
      rw [ih _ hrest, objGet_objSet_ne _ _ _ _ (Ne.symm hk)]

theorem objGet_mergeRaw_of_mem (a : Obj) (ps : List (String × String))
    (hnd : (ps.map Prod.fst).Nodup) (k : String) (v : String)
    (hmem : (k, v) ∈ ps) :
    objGet (mergeRaw a ps) k = some (.str v) := by
  induction ps generalizing a with
  | nil => cases hmem
  | cons q rest ih =>
      obtain ⟨qk, qv⟩ := q
      simp only [List.map_cons, List.nodup_cons] at hnd
      rcases List.mem_cons.mp hmem with heq | htail
      · obtain ⟨rfl, rfl⟩ := Prod.mk.injEq .. ▸ heq
        have hrest : ∀ r ∈ rest, r.1 ≠ k := by
          intro r hr hkk
          exact hnd.1 (hkk ▸ List.mem_map_of_mem Prod.fst hr)
        simp only [mergeRaw]
        rw [objGet_mergeRaw_of_notMem _ _ _ hrest, objGet_objSet_self]
      · simp only [mergeRaw]
        exact ih _ hnd.2 htail

/-! ## Claims -/

/-- C5: `mergeParams` never introduces into its target a key that is not a
declared attribute; for a declared parameter the value is stored as a number
exactly when the whole string converts to one under the JS rules — integral
(`"42"` ↦ 42), fractional (`"4.2"` ↦ 21/5), exponent (`"1e3"` ↦ 1000), hex
(`"0x1A"` ↦ 26) and `Infinity` forms included — and as the original string
otherwise (e.g. `"42a"` stays a string); and the (mutated) target is what
the call returns — unchanged when there are no parameters. -/
theorem C5_mergeParams_restricts_and_coerces (attrs : List String)
    (target : Obj) (params : List (String × String))
    (hnd : (params.map Prod.fst).Nodup) :
    (∀ k, objHas (mergeParams attrs target params) k = true →
        objHas target k = true ∨ k ∈ attrs) ∧
    (∀ k v, (k, v) ∈ params → k ∈ attrs →
        objGet (mergeParams attrs target params) k = some (coerceParam v)) ∧
    (∀ v q, jsToNumber v = some (.val q) → coerceParam v = .num q) ∧
    (∀ v b, jsToNumber v = some (.inf b) → coerceParam v = .numInf b) ∧
    (∀ v, jsToNumber v = none → coerceParam v = .str v) ∧
    coerceParam "42" = .num 42 ∧ coerceParam "42a" = .str "42a" ∧
    coerceParam "4.2" = .num (21 / 5) ∧ coerceParam "1e3" = .num 1000 ∧
    coerceParam "0x1A" = .num 26 ∧ coerceParam "Infinity" = .numInf false ∧
    mergeParams attrs target [] = target := by
  refine ⟨fun k h => mergeParams_key_safe attrs target params k h,
    fun k v hm hk => objGet_mergeParams_of_mem attrs target params hnd k v hm hk,
    fun v q h => by simp [coerceParam, h],
    fun v b h => by simp [coerceParam, h],
    fun v h => by simp [coerceParam, h],
    rfl, rfl, ?_, rfl, rfl, rfl, rfl⟩
  have h : coerceParam "4.2" = .num (decExpValue 42 (-1)) := rfl
  rw [h]
  exact congrArg JSVal.num (by norm_num [decExpValue])

/-- C5 witness at a concrete attribute set, target and parameter map. -/
theorem C5_witness :
    ((([("id", "42"), ("junk", "7"), ("name", "42a"), ("rate", "4.2")] :
        List (String × String)).map Prod.fst).Nodup) ∧
    objGet (mergeParams ["id", "name", "rate"] [("q", .str "x")]
      [("id", "42"), ("junk", "7"), ("name", "42a"), ("rate", "4.2")]) "id" =
      some (.num 42) ∧
    objGet (mergeParams ["id", "name", "rate"] [("q", .str "x")]
      [("id", "42"), ("junk", "7"), ("name", "42a"), ("rate", "4.2")]) "name" =
      some (.str "42a") ∧
    objGet (mergeParams ["id", "name", "rate"] [("q", .str "x")]
      [("id", "42"), ("junk", "7"), ("name", "42a"), ("rate", "4.2")]) "rate" =
      some (.num (21 / 5)) := by
  obtain ⟨-, h2, -, -, -, e42, e42a, efrac, -, -, -, -⟩ :=
    C5_mergeParams_restricts_and_coerces ["id", "name", "rate"]
      [("q", .str "x")]
      [("id", "42"), ("junk", "7"), ("name", "42a"), ("rate", "4.2")]
      (by decide)
  refine ⟨by decide, ?_, ?_, ?_⟩
  · rw [h2 "id" "42" (by decide) (by decide), e42]
  · rw [h2 "name" "42a" (by decide) (by decide), e42a]
  · rw [h2 "rate" "4.2" (by decide) (by decide), efrac]

/-- C10: a declared attribute bound to the empty string anywhere in the
path-parameter map is stored by `mergeParams` as the number 0 — the JS
numeric test accepts the empty string (`Number("")` is 0) — so it never
survives as a string. -/
theorem C10_empty_param_becomes_zero (attrs : List String) (target : Obj)
    (params : List (String × String)) (name : String)
    (hnd : (params.map Prod.fst).Nodup)
    (hmem : (name, "") ∈ params) (h : name ∈ attrs) :
    jsToNumber "" = some (.val 0) ∧
    objGet (mergeParams attrs target params) name = some (.num 0) ∧
    ∀ s, objGet (mergeParams attrs target params) name ≠ some (.str s) := by
  have hv : objGet (mergeParams attrs target params) name =
      some (coerceParam "") :=
    objGet_mergeParams_of_mem attrs target params hnd name "" hmem h
  have h0 : coerceParam "" = JSVal.num 0 := rfl
  refine ⟨rfl, by rw [hv, h0], ?_⟩
  intro s hs
  rw [hv, h0] at hs
  exact JSVal.noConfusion (Option.some.inj hs)

/-- C10 witness at a concrete attribute set and a two-parameter map. -/
theorem C10_witness :
    ((([("group_id", ""), ("id", "7")] :
        List (String × String)).map Prod.fst).Nodup) ∧
    ("group_id", "") ∈ [("group_id", ""), ("id", "7")] ∧
    "group_id" ∈ ["id", "group_id"] ∧
    objGet (mergeParams ["id", "group_id"] []
      [("group_id", ""), ("id", "7")]) "group_id" = some (.num 0) := by
  have h := C10_empty_param_becomes_zero ["id", "group_id"] []
    [("group_id", ""), ("id", "7")] "group_id" (by decide) (by decide)
    (by decide)
  exact ⟨by decide, by decide, by decide, h.2.1⟩

/-- C4: when the find-one lookup completes without error and yields no item,
the `show` (fetch), `update` and `destroy` (removeOne) handlers each hand a
`NotFound` error — HTTP 404 — to `next`, write no response themselves, and
persist nothing. -/
theorem C4_missing_item_404 (R : Res) (query : Obj)
    (params : List (String × String)) (body : PBody) (prefer : Option String)
    (hShow : R.findOne (mergeRaw query params) = .ok none)
    (hItem : R.findOne (mergeParams R.attrs query params) = .ok none) :
    (showRun R query params).outcome = .nextError .notFound ∧
    (updateRun R query params body prefer).outcome = .nextError .notFound ∧
    (destroyRun R query params).outcome = .nextError .notFound ∧
    (updateRun R query params body prefer).saveCalls = [] ∧
    herrStatus .notFound = some 404 := by
  refine ⟨?_, ?_, ?_, ?_, rfl⟩ <;>
    simp [showRun, updateRun, destroyRun, hShow, hItem]

/-- C4 witness: a resource whose find-one always yields nothing. -/
theorem C4_witness :
    (mkRes ["id"] (fun _ => .ok none)).findOne
        (mergeRaw [] [("id", "1")]) = .ok none ∧
    (showRun (mkRes ["id"] (fun _ => .ok none)) [] [("id", "1")]).outcome =
      .nextError .notFound ∧
    (updateRun (mkRes ["id"] (fun _ => .ok none)) [] [("id", "1")]
        (.one .bad) none).outcome = .nextError .notFound ∧
    (destroyRun (mkRes ["id"] (fun _ => .ok none)) [] [("id", "1")]).outcome =
      .nextError .notFound := by
  have h := C4_missing_item_404 (mkRes ["id"] (fun _ => .ok none)) []
    [("id", "1")] (.one .bad) none rfl rfl
  exact ⟨rfl, h.1, h.2.1, h.2.2.1⟩

/-- C6: a PUT replace whose find-one completes without error and yields no
existing item builds the instance from the payload, persists it, and responds
201 with the created item as body — for every `Prefer` header value. -/
theorem C6_replace_creates_201 (R : Res) (query : Obj)
    (params : List (String × String)) (body : Obj) (prefer : Option String)
    (hFind : R.findOne (mergeParams R.attrs query params) = .ok none)
    (hSave : R.save (objSetFields [] body) = .ok ()) :
    replaceRun R query params body prefer =
      ⟨.response 201 (some (.obj (objSetFields [] body))) [],
       [mergeParams R.attrs query params], [objSetFields [] body]⟩ := by
  simp [replaceRun, hFind, hSave]

/-- C6 witness: a missing item, with and without a `Prefer` header. -/
theorem C6_witness :
    (replaceRun (mkRes ["id"] (fun _ => .ok none)) [] [("id", "7")]
        [("name", .str "amy")] (some "return=representation")).outcome =
      .response 201 (some (.obj [("name", .str "amy")])) [] ∧
    (replaceRun (mkRes ["id"] (fun _ => .ok none)) [] [("id", "7")]
        [("name", .str "amy")] none).outcome =
      .response 201 (some (.obj [("name", .str "amy")])) [] := by
  have h1 := C6_replace_creates_201 (mkRes ["id"] (fun _ => .ok none)) []
    [("id", "7")] [("name", .str "amy")] (some "return=representation") rfl rfl
  have h2 := C6_replace_creates_201 (mkRes ["id"] (fun _ => .ok none)) []
    [("id", "7")] [("name", .str "amy")] none rfl rfl
  rw [h1, h2]
  exact ⟨rfl, rfl⟩

/-- C2: for the update and replace handlers, when find-one yields an existing
item and the persist succeeds, the response is 200 with the updated item as
body exactly when the `Prefer` header value matches `return=representation`
case-insensitively, and 204 with an empty body otherwise. -/
theorem C2_prefer_governs_200_vs_204 (R : Res) (query : Obj)
    (params : List (String × String)) (pbody : PBody) (rbody : Obj)
    (prefer : Option String) (r r2 : Obj)
    (hFind : R.findOne (mergeParams R.attrs query params) = .ok (some r))
    (hPatch : jsonpatchApply r (pbodyOps pbody) = .ok r2)
    (hSaveU : R.save r2 = .ok ())
    (hSaveR : R.save (objSetFields r rbody) = .ok ()) :
    ((updateRun R query params pbody prefer).outcome =
        .response 200 (some (.obj r2)) [] ↔ preferMatch prefer = true) ∧
    (preferMatch prefer = false →
      (updateRun R query params pbody prefer).outcome = .response 204 none []) ∧
    ((replaceRun R query params rbody prefer).outcome =
        .response 200 (some (.obj (objSetFields r rbody))) [] ↔
      preferMatch prefer = true) ∧
    (preferMatch prefer = false →
      (replaceRun R query params rbody prefer).outcome =
        .response 204 none []) := by
  have hu : (updateRun R query params pbody prefer).outcome =
      respondPrefer prefer (.obj r2) := by
    simp [updateRun, hFind, hPatch, hSaveU]
  have hr : (replaceRun R query params rbody prefer).outcome =
      respondPrefer prefer (.obj (objSetFields r rbody)) := by
    simp [replaceRun, hFind, hSaveR]
  cases hpm : preferMatch prefer <;>
    simp [hu, hr, respondPrefer, hpm]

/-- C2 witness: a mixed-case `Prefer` header yields 200 with the body; an
absent header yields 204 with no body. -/
theorem C2_witness :
    preferMatch (some "Return=Representation") = true ∧
    (updateRun (mkRes ["id"] (fun _ => .ok (some [("id", .num 123), ("name", .str "bob")])))
        [] [] (.one (.replaceField "name" (.str "jeff")))
        (some "Return=Representation")).outcome =
      .response 200 (some (.obj [("id", .num 123), ("name", .str "jeff")])) [] ∧
    preferMatch none = false ∧
    (updateRun (mkRes ["id"] (fun _ => .ok (some [("id", .num 123), ("name", .str "bob")])))
        [] [] (.one (.replaceField "name" (.str "jeff"))) none).outcome =
      .response 204 none [] := by
  have h1 := C2_prefer_governs_200_vs_204
    (mkRes ["id"] (fun _ => .ok (some [("id", .num 123), ("name", .str "bob")])))
    [] [] (.one (.replaceField "name" (.str "jeff"))) []
    (some "Return=Representation")
    [("id", .num 123), ("name", .str "bob")]
    [("id", .num 123), ("name", .str "jeff")] rfl rfl rfl rfl
  have h2 := C2_prefer_governs_200_vs_204
    (mkRes ["id"] (fun _ => .ok (some [("id", .num 123), ("name", .str "bob")])))
    [] [] (.one (.replaceField "name" (.str "jeff"))) [] none
    [("id", .num 123), ("name", .str "bob")]
    [("id", .num 123), ("name", .str "jeff")] rfl rfl rfl rfl
  exact ⟨rfl, h1.1.mpr rfl, rfl, h2.2.1 rfl⟩

/-- C3 (amended): when the JSON-Patch body fails to apply to the fetched
item, the update handler propagates the patch library's error as an uncaught
synchronous exception — there is no BadRequest/400 conversion — and the item
is never persisted (`save` is not invoked). -/
theorem C3_patch_failure_throws_unpersisted (R : Res) (query : Obj)
    (params : List (String × String)) (body : PBody) (prefer : Option String)
    (r : Obj) (pe : PatchErr)
    (hFind : R.findOne (mergeParams R.attrs query params) = .ok (some r))
    (hPatch : jsonpatchApply r (pbodyOps body) = .error pe) :
    updateRun R query params body prefer =
      ⟨.thrown pe, [mergeParams R.attrs query params], []⟩ := by
  simp [updateRun, hFind, hPatch]

/-- C3 counterexample: on a malformed patch body the handler's outcome is a
thrown patch exception whose observable status is not 400 (no BadRequest
condition exists in the module), with no persist attempted — the claimed
400 response does not happen. -/
theorem C3_counterexample :
    (updateRun (mkRes ["id"] (fun _ => .ok (some [("id", .num 123)])))
        [] [] (.one .bad) none).outcome = .thrown .malformedOp ∧
    outcomeStatus (updateRun (mkRes ["id"] (fun _ => .ok (some [("id", .num 123)])))
        [] [] (.one .bad) none).outcome ≠ some 400 ∧
    (updateRun (mkRes ["id"] (fun _ => .ok (some [("id", .num 123)])))
        [] [] (.one .bad) none).saveCalls = [] := by
  refine ⟨rfl, ?_, rfl⟩
  decide

/-- C3 witness for the amended statement, at a concrete malformed body. -/
theorem C3_witness :
    updateRun (mkRes ["id"] (fun _ => .ok (some [("id", .num 123)])))
        [] [("id", "123")] (.arr []) none =
      ⟨.thrown .malformedOp, [[("id", .num 123)]], []⟩ :=
  C3_patch_failure_throws_unpersisted
    (mkRes ["id"] (fun _ => .ok (some [("id", .num 123)])))
    [] [("id", "123")] (.arr []) none [("id", .num 123)] .malformedOp rfl rfl

/-- C7: evaluating the create handler at a concrete created resource — the
response carries status 201 and the created body, but the `Location` header
holds the resource object returned by `mergeParams` (the handler passes the
URL template *string* where the parameter map belongs), not the
template-substituted URL string the claim and the handler's own documentation
describe. -/
theorem C7_location_not_substituted :
    createRun (mkRes ["id"] (fun _ => .ok none)) [("id", .num 123)] []
        "/users/:id" =
      ⟨.response 201 (some (.obj [("id", .num 123)]))
          [("Location", .obj [("id", .num 123)])], [], [[("id", .num 123)]]⟩ ∧
    substituteTemplate "id" [("id", .num 123)] "/users/:id" = "/users/123" ∧
    JSVal.obj [("id", .num 123)] ≠
      .str (substituteTemplate "id" [("id", .num 123)] "/users/:id") := by
  refine ⟨rfl, by decide, ?_⟩
  intro h
  exact JSVal.noConfusion h

/-- C8 counterexample: the fixed table maps the update action to PATCH, not
PUT; and in the default route table update (PATCH) and replace (PUT) are
distinct actions with distinct handlers on the resource URL, so PUT and PATCH
do not route to one shared update handler. -/
theorem C8_counterexample :
    actionsToMethods "update" = some "PATCH" ∧
    actionsToMethods "update" ≠ some "PUT" ∧
    (buildRoutes (defaultActions "/users/:id" "/users")).find?
        (fun r => r.action = "update") =
      some ⟨"update", "/users/:id", some "PATCH"⟩ ∧
    (buildRoutes (defaultActions "/users/:id" "/users")).find?
        (fun r => r.action = "replace") =
      some ⟨"replace", "/users/:id", some "PUT"⟩ := by
  decide

/-- C8 (amended): the fixed action→method table assigns GET to index and
show, POST to create, PUT to replace, PATCH to update and updateMany, DELETE
to destroy and destroyMany, and OPTIONS to describe and describeMany; there
is no allowPatch flag, and PUT (replace) and PATCH (update) reach different
handlers. -/
theorem C8_action_method_table :
    actionsToMethods "index" = some "GET" ∧
    actionsToMethods "show" = some "GET" ∧
    actionsToMethods "create" = some "POST" ∧
    actionsToMethods "replace" = some "PUT" ∧
    actionsToMethods "update" = some "PATCH" ∧
    actionsToMethods "updateMany" = some "PATCH" ∧
    actionsToMethods "destroy" = some "DELETE" ∧
    actionsToMethods "destroyMany" = some "DELETE" ∧
    actionsToMethods "describe" = some "OPTIONS" ∧
    actionsToMethods "describeMany" = some "OPTIONS" := by
  decide

/-- C9 counterexample: the show handler — an item-level handler — passes the
*unrestricted* merge of the path parameters into its find-one query: a
parameter whose name is no declared attribute survives into the query as an
uncoerced string, which `mergeParams` would have dropped. -/
theorem C9_counterexample :
    ("evil" ∉ (mkRes ["id"] (fun _ => .ok none)).attrs) ∧
    mergeParams ["id"] [] [("evil", "42")] = [] ∧
    (showRun (mkRes ["id"] (fun _ => .ok none)) [] [("evil", "42")]).queries =
      [[("evil", .str "42")]] := by
  exact ⟨by decide, rfl, rfl⟩

/-- C9 (amended): the collection-level handlers index, updateMany and
destroyMany — and also the item-level show handler — build their storage
query with the unrestricted key-by-key merge (every path parameter copied,
undeclared names included, values kept as raw strings), while the
attribute-restricted coercing `mergeParams` is applied by the create,
replace, update and destroy handlers. -/
theorem C9_merge_usage (R : Res) (query : Obj)
    (params : List (String × String)) (pb : PBody) (mb : MBody)
    (rbody : Obj) (body : Obj) (prefer : Option String) (url : String)
    (hnd : (params.map Prod.fst).Nodup) :
    (indexRun R query params).queries = [mergeRaw query params] ∧
    (updateManyRun R query params mb prefer).queries = [mergeRaw query params] ∧
    (destroyManyRun R query params).queries = [mergeRaw query params] ∧
    (showRun R query params).queries = [mergeRaw query params] ∧
    (∀ k v, (k, v) ∈ params → objGet (mergeRaw query params) k = some (.str v)) ∧
    (updateRun R query params pb prefer).queries =
      [mergeParams R.attrs query params] ∧
    (replaceRun R query params rbody prefer).queries =
      [mergeParams R.attrs query params] ∧
    (destroyRun R query params).queries =
      [mergeParams R.attrs query params] ∧
    (createRun R body params url).saveCalls =
      [objSetFields [] (mergeParams R.attrs body params)] := by
  refine ⟨?_, ?_, ?_, ?_,
    fun k v hm => objGet_mergeRaw_of_mem query params hnd k v hm,
    ?_, ?_, ?_, ?_⟩
  · cases h : R.find (mergeRaw query params) <;> simp [indexRun, h]
  · cases h : R.find (mergeRaw query params) with
    | error e => simp [updateManyRun, h]
    | ok rs =>
        cases h2 : patchAll mb rs.enum with
        | error pe => simp [updateManyRun, h, h2]
        | ok rs2 =>
            cases h3 : R.bulkUpdate (mergeRaw query params) mb <;>
              simp [updateManyRun, h, h2, h3]
  · cases h : R.removeMany (mergeRaw query params) <;> simp [destroyManyRun, h]
  · cases h : R.findOne (mergeRaw query params) with
    | error e => simp [showRun, h]
    | ok mr => cases mr <;> simp [showRun, h]
  · cases h : R.findOne (mergeParams R.attrs query params) with
    | error e => simp [updateRun, h]
    | ok mr =>
        cases mr with
        | none => simp [updateRun, h]
        | some r =>
            cases h2 : jsonpatchApply r (pbodyOps pb) with
            | error pe => simp [updateRun, h, h2]
            | ok r2 => cases h3 : R.save r2 <;> simp [updateRun, h, h2, h3]
  · cases h : R.findOne (mergeParams R.attrs query params) with
    | error e => simp [replaceRun, h]
    | ok mr =>
        cases mr with
        | none =>
            cases h2 : R.save (objSetFields [] rbody) <;>
              simp [replaceRun, h, h2]
        | some r =>
            cases h2 : R.save (objSetFields r rbody) <;>
              simp [replaceRun, h, h2]
  · cases h : R.findOne (mergeParams R.attrs query params) with
    | error e => simp [destroyRun, h]
    | ok mr =>
        cases mr with
        | none => simp [destroyRun, h]
        | some r => cases h2 : R.removeOne r <;> simp [destroyRun, h, h2]
  · cases h : R.save (objSetFields [] (mergeParams R.attrs body params)) <;>
      simp [createRun, h]

/-- C9 witness at a concrete parameter map with an undeclared name. -/
theorem C9_witness :
    (([("group_id", "3"), ("x", "y")] :
        List (String × String)).map Prod.fst).Nodup ∧
    (indexRun (mkRes ["id"] (fun _ => .ok none)) []
        [("group_id", "3"), ("x", "y")]).queries =
      [mergeRaw [] [("group_id", "3"), ("x", "y")]] ∧
    objGet (mergeRaw [] [("group_id", "3"), ("x", "y")]) "group_id" =
      some (.str "3") := by
  have h := C9_merge_usage (mkRes ["id"] (fun _ => .ok none)) []
    [("group_id", "3"), ("x", "y")] (.one .bad) (.one .bad) [] [] none "/u"
    (by decide)
  exact ⟨by decide, h.1, h.2.2.2.2.1 "group_id" "3" (by decide)⟩

/-- JS object lookup agrees with membership when keys are unique. -/
theorem alget_eq_some_iff (m : List (String × String))
    (hnd : (m.map Prod.fst).Nodup) (k v : String) :
    alget m k = some v ↔ (k, v) ∈ m := by
  induction m with
  | nil => simp [alget]
  | cons p rest ih =>
      obtain ⟨pk, pv⟩ := p
      simp only [List.map_cons, List.nodup_cons] at hnd
      by_cases hk : pk = k
      · subst hk
        constructor
        · intro h
          simp only [alget, List.find?_cons, decide_True] at h
          exact List.mem_cons.mpr (Or.inl (by
            cases h
            rfl))
        · intro h
          rcases List.mem_cons.mp h with heq | htail
          · obtain ⟨_, rfl⟩ := Prod.mk.injEq .. ▸ heq.symm
            simp [alget, List.find?_cons]
          · exact absurd (List.mem_map_of_mem Prod.fst htail) hnd.1
      · constructor
        · intro h
          simp only [alget, List.find?_cons, decide_eq_false hk] at h
          exact List.mem_cons.mpr (Or.inr ((ih hnd.2).mp h))
        · intro h
          rcases List.mem_cons.mp h with heq | htail
          · exact absurd (congrArg Prod.fst heq.symm) hk
          · simp only [alget, List.find?_cons, decide_eq_false hk]
            exact (ih hnd.2).mpr htail

/-- Membership in the `Allow` list built by `setAllowedActions`: exactly the
methods of the fixed table's actions that the configuration binds to the
given path. -/
theorem mem_setAllowedActions (path : String)
    (actions : List (String × String)) (m : String) :
    m ∈ setAllowedActions path actions ↔
      ∃ a, (a, m) ∈ actionsToMethodsTable ∧ alget actions a = some path := by
  simp only [setAllowedActions, List.mem_map, List.mem_filter]
  constructor
  · rintro ⟨p, ⟨hpt, hpa⟩, rfl⟩
    exact ⟨p.1, by simpa using hpt, of_decide_eq_true hpa⟩
  · rintro ⟨a, hat, haa⟩
    exact ⟨(a, m), ⟨hat, decide_eq_true haa⟩, rfl⟩

/-- Membership in the registered-methods list for a template: exactly the
methods the fixed table assigns to actions the configuration binds to that
template. -/
theorem mem_methodsAt (actions : List (String × String)) (path m : String) :
    m ∈ methodsAt actions path ↔
      ∃ a, (a, path) ∈ actions ∧ actionsToMethods a = some m := by
  simp only [methodsAt, buildRoutes, List.mem_filterMap, List.mem_map]
  constructor
  · rintro ⟨r, ⟨p, hp, rfl⟩, hif⟩
    by_cases hpath : p.2 = path
    · rw [if_pos hpath] at hif
      exact ⟨p.1, by rwa [← hpath], hif⟩
    · rw [if_neg hpath] at hif
      cases hif
  · rintro ⟨a, haa, ham⟩
    exact ⟨⟨a, path, actionsToMethods a⟩, ⟨(a, path), haa, rfl⟩, by simp [ham]⟩

/-- The fixed `actionsToMethods` table has distinct keys. -/
theorem actionsToMethodsTable_keys_nodup :
    (actionsToMethodsTable.map Prod.fst).Nodup := by
  decide

/-- C1: when the request path matches at least one route but the request
method equals none of the matched routes' methods, the router middleware runs
`methodNotAllowed`, which fails with a `MethodNotAllowed` (405) condition and
sets the `Allow` header to exactly the set of HTTP methods registered for the
matched path template (the template of `req.route = matched[0]`). -/
theorem C1_method_not_allowed_405 (actions : List (String × String))
    (reqPath reqMethod : String)
    (hkeys : (actions.map Prod.fst).Nodup)
    (first : Route) (rest : List Route)
    (hm : matchedRoutes actions reqPath = first :: rest)
    (hnone : ∀ r ∈ matchedRoutes actions reqPath, r.method ≠ some reqMethod) :
    routerRun actions reqPath reqMethod =
      .notAllowed .methodNotAllowed (setAllowedActions first.path actions) ∧
    herrStatus .methodNotAllowed = some 405 ∧
    (setAllowedActions first.path actions).toFinset =
      (methodsAt actions first.path).toFinset := by
  refine ⟨?_, rfl, ?_⟩
  · have hfind : (first :: rest).find?
        (fun r => r.method = some reqMethod) = none := by
      rw [List.find?_eq_none]
      intro r hr hcontra
      exact hnone r (hm ▸ hr) (of_decide_eq_true hcontra)
    simp only [routerRun, hm, hfind]
  · ext m
    simp only [List.mem_toFinset, mem_setAllowedActions, mem_methodsAt]
    constructor
    · rintro ⟨a, hat, haa⟩
      exact ⟨a, (alget_eq_some_iff actions hkeys a first.path).mp haa,
        (alget_eq_some_iff actionsToMethodsTable
          actionsToMethodsTable_keys_nodup a m).mpr hat⟩
    · rintro ⟨a, haa, ham⟩
      exact ⟨a, (alget_eq_some_iff actionsToMethodsTable
          actionsToMethodsTable_keys_nodup a m).mp ham,
        (alget_eq_some_iff actions hkeys a first.path).mpr haa⟩

/-- C1 witness: the default configuration, a POST to an item URL whose
template registers GET, PATCH, PUT, DELETE and OPTIONS. -/
theorem C1_witness :
    matchedRoutes (defaultActions "/users/:id" "/users") "/users/123" =
      ⟨"show", "/users/:id", some "GET"⟩ ::
        [⟨"update", "/users/:id", some "PATCH"⟩,
         ⟨"replace", "/users/:id", some "PUT"⟩,
         ⟨"destroy", "/users/:id", some "DELETE"⟩,
         ⟨"describe", "/users/:id", some "OPTIONS"⟩] ∧
    routerRun (defaultActions "/users/:id" "/users") "/users/123" "POST" =
      .notAllowed .methodNotAllowed
        ["OPTIONS", "GET", "PUT", "PATCH", "DELETE"] ∧
    herrStatus .methodNotAllowed = some 405 := by
  have h := C1_method_not_allowed_405 (defaultActions "/users/:id" "/users")
    "/users/123" "POST" (by decide)
    ⟨"show", "/users/:id", some "GET"⟩
    [⟨"update", "/users/:id", some "PATCH"⟩,
     ⟨"replace", "/users/:id", some "PUT"⟩,
     ⟨"destroy", "/users/:id", some "DELETE"⟩,
     ⟨"describe", "/users/:id", some "OPTIONS"⟩]
    (by decide) (by decide)
  refine ⟨by decide, ?_, h.2.1⟩
  rw [h.1]
  decide

end MioExpress
